import Mathlib

/-!
Verification of the traversal-and-filter engine of the File-Search-Utility
repository (src/search.c) against its natural-language specification.

The C program is shallowly embedded: the directory tree a run works on is a
`Node` value, one `readdir` entry is a `(name, child)` pair in enumeration
order, and the function `recursive_search` below mirrors the C function
`recursive_search` (src/search.c lines 51-101) line by line.  The `while`
loop over the entries of one listing is factored out as `searchEntries`,
with an explicit `LoopExit` value distinguishing a normal loop end (which in
the C code is followed by `closedir`) from the early `return 0` taken when
`depth == opts->max_depth` (which skips `closedir`).  Side effects are made
visible in the result: `out` records every `printf("%s\n", buf)` call
together with the entry name and type that produced it, `opened` records
every successful `opendir`, `leaked` counts `DIR` handles that were opened
but never passed to `closedir`, and `mc` counts `malloc` calls so that an
allocation-failure oracle `af : Nat → Bool` can be threaded through
(`af k = true` means the k-th `malloc` of the run returns `NULL`).

The `-l` flag handling of `main` (src/search.c lines 127-137) is embedded
separately as `handle_l_flag` on top of a model of C `atoi`.
-/

namespace FileSearch

/-- Entry type as reported in `struct dirent.d_type`: `DT_DIR`, `DT_REG`,
or anything else (symlink, socket, device, fifo, unknown). -/
inductive DType where
  | dir | reg | other
  deriving DecidableEq, Repr

/-- A filesystem node.  `dir readable entries` is a directory whose listing,
in enumeration order, is `entries`; `readable = false` means `opendir` on it
fails.  Listings may contain `"."` and `".."` entries like real `readdir`
output; the walker skips them by name exactly as the C code does. -/
inductive Node where
  | file : Node
  | other : Node
  | dir : Bool → List (String × Node) → Node

/-- The `d_type` an entry with this node reports. -/
def Node.dtype : Node → DType
  | .file => .reg
  | .other => .other
  | .dir _ _ => .dir

/-- Embedding of `struct options` (src/search.c lines 20-26).  The bitfield
booleans become plain `Bool` fields; `max_depth` is the C `int`. -/
structure Options where
  max_depth : Int
  exact_match : Bool
  show_dirs : Bool
  show_files : Bool
  show_hidden : Bool
  deriving DecidableEq, Repr

/-- Embedding of `default_options = {-1, false, true, true, false}`
(src/search.c line 28). -/
def default_options : Options := ⟨-1, false, true, true, false⟩

/-- `strstr(h, n) != NULL` on character lists: `n` occurs contiguously in
`h` (an empty `n` is found at position 0). -/
def strstrFound : List Char → List Char → Bool
  | [], n => n.isPrefixOf ([] : List Char)
  | c :: t, n => n.isPrefixOf (c :: t) || strstrFound t n

/-- `strstr(name, pat) != NULL` on strings. -/
def strstrF (name pat : String) : Bool := strstrFound name.data pat.data

/-- `d_name[0] == '.'` — for an empty name the first byte is the NUL
terminator, which is not `'.'`. -/
def startsDot (name : String) : Bool :=
  match name.data with
  | [] => false
  | c :: _ => c = '.'

/-- The print condition of the `DT_DIR` branch (src/search.c line 74):
`strstr(entry->d_name, search_term) != NULL && opts->show_dirs == true`.
No hidden-name test and no exact-match test is applied to directories. -/
def dir_print_decision (opts : Options) (st name : String) : Bool :=
  strstrF name st && opts.show_dirs

/-- The print condition of the `DT_REG` branch (src/search.c lines 82-93):
the branch is entered only when `opts->show_files` holds; a hidden name with
`show_hidden == false` is skipped by `continue`; otherwise the name must
contain the search term, and with `exact_match` it must equal it. -/
def file_print_decision (opts : Options) (st name : String) : Bool :=
  if opts.show_files then
    if opts.show_hidden = false ∧ startsDot name then false
    else if strstrF name st then
      if opts.exact_match then st == name else true
    else false
  else false

/-- One `printf("%s\n", buf)` event: the printed path `buf`, plus (as ghost
data for the proofs) the entry name and `d_type` that produced it.  In the
code `path = directory ++ "/" ++ name` at the print site. -/
structure PrintRec where
  path : String
  name : String
  dtype : DType
  deriving DecidableEq, Repr

/-- How the entry loop of one `recursive_search` call ended: `normal` covers
both loop completion and the `malloc`-failure `break` (both fall through to
`closedir`); `earlyReturn` is the `return 0` taken when
`depth == opts->max_depth`, which bypasses `closedir`. -/
inductive LoopExit where
  | normal
  | earlyReturn
  deriving DecidableEq, Repr

/-- Result of running the entry loop on (a suffix of) one listing. -/
structure EntriesResult where
  out : List PrintRec
  exit : LoopExit
  opened : List String
  leaked : Nat
  mc : Nat
  deriving DecidableEq, Repr

/-- Result of one `recursive_search` call: printed records, the C return
value, the successfully opened directory paths, the count of `DIR` handles
never closed, and the running `malloc` count. -/
structure WalkResult where
  out : List PrintRec
  ret : Int
  opened : List String
  leaked : Nat
  mc : Nat
  deriving DecidableEq, Repr

mutual

/-- Embedding of `recursive_search` (src/search.c lines 51-101).
`opendir` succeeds only on a readable directory node; on failure the C code
does `perror` and `return 1` without visiting anything.  On success the
entry loop runs; if it ends normally (including the `malloc`-failure
`break`) the handle is closed and 0 returned, while the depth-limit
`return 0` inside the loop leaves the handle unclosed (`leaked + 1`). -/
def recursive_search (opts : Options) (af : Nat → Bool) (st : String) :
    Node → String → Int → Nat → WalkResult
  | Node.dir true entries, directory, depth, mc =>
      let r := searchEntries opts af st entries directory depth mc
      match r.exit with
      | .earlyReturn => ⟨r.out, 0, directory :: r.opened, r.leaked + 1, r.mc⟩
      | .normal => ⟨r.out, 0, directory :: r.opened, r.leaked, r.mc⟩
  | Node.dir false _, _, _, mc => ⟨[], 1, [], 0, mc⟩
  | Node.file, _, _, mc => ⟨[], 1, [], 0, mc⟩
  | Node.other, _, _, mc => ⟨[], 1, [], 0, mc⟩

/-- Embedding of the `while ((entry = readdir(dir)) != NULL)` loop body
(src/search.c lines 57-99), processing the remaining entries of one
listing: skip `"."` and `".."`; `return 0` once `depth == opts->max_depth`;
`break` when `malloc` fails (oracle `af` at the current `malloc` count);
otherwise compose `buf = directory + "/" + name` and dispatch on `d_type`.
The return value of the recursive call on a subdirectory is discarded,
exactly as in the source. -/
def searchEntries (opts : Options) (af : Nat → Bool) (st : String) :
    List (String × Node) → String → Int → Nat → EntriesResult
  | [], _, _, mc => ⟨[], .normal, [], 0, mc⟩
  | (name, child) :: rest, directory, depth, mc =>
      if name = "." ∨ name = ".." then
        searchEntries opts af st rest directory depth mc
      else if depth = opts.max_depth then
        ⟨[], .earlyReturn, [], 0, mc⟩
      else if af mc then
        ⟨[], .normal, [], 0, mc + 1⟩
      else
        let buf := directory ++ "/" ++ name
        match child with
        | Node.dir readable centries =>
            let printed := if dir_print_decision opts st name then
              [(⟨buf, name, DType.dir⟩ : PrintRec)] else []
            let rc := recursive_search opts af st (Node.dir readable centries) buf
              (depth + 1) (mc + 1)
            let rr := searchEntries opts af st rest directory depth rc.mc
            ⟨printed ++ rc.out ++ rr.out, rr.exit, rc.opened ++ rr.opened,
              rc.leaked + rr.leaked, rr.mc⟩
        | Node.file =>
            let printed := if file_print_decision opts st name then
              [(⟨buf, name, DType.reg⟩ : PrintRec)] else []
            let rr := searchEntries opts af st rest directory depth (mc + 1)
            ⟨printed ++ rr.out, rr.exit, rr.opened, rr.leaked, rr.mc⟩
        | Node.other =>
            searchEntries opts af st rest directory depth (mc + 1)

end

/-- Allocation oracle under which every `malloc` succeeds. -/
def af0 : Nat → Bool := fun _ => false

/-- Allocation oracle under which every `malloc` fails. -/
def afAllFail : Nat → Bool := fun _ => true

/-- The `sub` directory of the specification scenario tree. -/
def subTree : Node := Node.dir true [("b.txt", Node.file)]

/-- The specification scenario tree `root/{a.txt, .hidden.txt, sub/{b.txt}}`. -/
def rootTree : Node :=
  Node.dir true [("a.txt", Node.file), (".hidden.txt", Node.file), ("sub", subTree)]

/-- The scenario configuration with `maxDepth = 0` (all other fields as in
the default configuration). -/
def optsDepth0 : Options := ⟨0, false, true, true, false⟩

/-- A configuration with `exact_match = true` and `show_hidden = true`. -/
def exactOpts : Options := ⟨-1, true, true, true, true⟩

/-- A configuration with `show_dirs = false, show_files = true`. -/
def filesOnlyOpts : Options := ⟨-1, false, false, true, false⟩

/-- A tree containing a hidden directory with a file inside:
`root/{.git/{x.txt}}`. -/
def dotDirTree : Node :=
  Node.dir true [(".git", Node.dir true [("x.txt", Node.file)])]

/-- A tree with files `foo` and `foobar` for the exact-match scenario. -/
def fooTree : Node :=
  Node.dir true [("foo", Node.file), ("foobar", Node.file)]

/-- A copy of a configuration with `show_dirs` forced on, used to compare
traversal structure with and without directory display. -/
def withShowDirs (o : Options) : Options :=
  ⟨o.max_depth, o.exact_match, true, o.show_files, o.show_hidden⟩

/-! ## Embedding of the `-l` flag handling in `main` -/

/-- C `isspace` in the default locale: space, `\t`, `\n`, vertical tab,
form feed, `\r`. -/
def c_isspace (c : Char) : Bool :=
  c = ' ' || c = '\t' || c = '\n' || c = Char.ofNat 11 || c = Char.ofNat 12 || c = '\r'

/-- Accumulate the leading decimal digits, stopping at the first
non-digit, as C `atoi` does after sign handling. -/
def atoiLoop : List Char → Int → Int
  | [], acc => acc
  | c :: rest, acc =>
      if c.isDigit then atoiLoop rest (acc * 10 + ((c.toNat : Int) - ('0'.toNat : Int)))
      else acc

/-- Model of C `atoi`: skip leading whitespace, consume an optional sign,
then the longest run of leading digits; any remaining characters are
ignored, and a string with no leading digits yields 0.  (C `atoi` overflow
is undefined behaviour; the model computes the exact mathematical value,
which agrees with the C function on every input relevant here.) -/
def atoi (s : List Char) : Int :=
  match s.dropWhile c_isspace with
  | '-' :: rest => - atoiLoop rest 0
  | '+' :: rest => atoiLoop rest 0
  | t => atoiLoop t 0

/-- Outcome of the `case 'l'` branch of `main` (src/search.c lines
127-137): `rejected` means `perror("Invalid limit")`, `print_usage`, and
`return 1` before any traversal; `accepted n` means `opts.max_depth = n`
and option parsing continues. -/
inductive LReply where
  | rejected : LReply
  | accepted : Int → LReply
  deriving DecidableEq, Repr

/-- Embedding of the `case 'l'` branch: `depth_limit = atoi(optarg)`; if
`depth_limit <= 0` the run is rejected, otherwise the value becomes
`max_depth`. -/
def handle_l_flag (optarg : String) : LReply :=
  let depth_limit := atoi optarg.data
  if depth_limit ≤ 0 then LReply.rejected else LReply.accepted depth_limit

/-- Formalisation of the claim wording "the supplied value is a positive
integer": the argument consists solely of decimal digits and denotes a
positive value. -/
def isPositiveIntegerLiteral (s : String) : Bool :=
  !s.data.isEmpty && s.data.all Char.isDigit && decide (0 < atoi s.data)

/-! ## Helper lemmas -/

/-- `strstr` always finds the empty needle. -/
theorem strstrFound_nil (h : List Char) : strstrFound h [] = true := by
  cases h <;> simp [strstrFound, List.isPrefixOf]

/-- `strstr(s, "") != NULL` for every string `s`. -/
theorem strstrF_empty (s : String) : strstrF s "" = true :=
  strstrFound_nil s.data

/-- Every character list contains itself. -/
theorem strstrFound_self (l : List Char) : strstrFound l l = true := by
  cases l with
  | nil => simp [strstrFound, List.isPrefixOf]
  | cons c t => simp [strstrFound, List.isPrefixOf_iff_prefix]

/-- `strstr(s, s) != NULL` for every string `s`. -/
theorem strstrF_self (s : String) : strstrF s s = true :=
  strstrFound_self s.data

/-- A file print decision taken with `show_hidden = false` never concerns a
name that begins with a dot. -/
theorem file_print_decision_not_hidden (opts : Options) (st name : String)
    (h : opts.show_hidden = false) (hd : file_print_decision opts st name = true) :
    startsDot name = false := by
  by_contra habs
  rw [Bool.not_eq_false] at habs
  unfold file_print_decision at hd
  split_ifs at hd with h1 h2 <;> simp_all

/-- Once `depth` equals `max_depth`, the entry loop prints nothing, opens
nothing, leaks nothing of its own, performs no `malloc`, and — as soon as
the listing holds any entry other than `"."` and `".."` — exits by the
early `return 0`. -/
theorem searchEntries_at_limit (opts : Options) (af : Nat → Bool) (st : String)
    (entries : List (String × Node)) (dir : String) (depth : Int) (mc : Nat)
    (h : depth = opts.max_depth) :
    (searchEntries opts af st entries dir depth mc).out = [] ∧
    (searchEntries opts af st entries dir depth mc).opened = [] ∧
    (searchEntries opts af st entries dir depth mc).leaked = 0 ∧
    (searchEntries opts af st entries dir depth mc).mc = mc ∧
    ((∃ e ∈ entries, e.1 ≠ "." ∧ e.1 ≠ "..") →
      (searchEntries opts af st entries dir depth mc).exit = LoopExit.earlyReturn) := by
  induction entries with
  | nil =>
      rw [searchEntries]
      exact ⟨rfl, rfl, rfl, rfl, by simp⟩
  | cons e rest ih =>
      obtain ⟨name, child⟩ := e
      rw [searchEntries]
      by_cases h1 : name = "." ∨ name = ".."
      · rw [if_pos h1]
        refine ⟨ih.1, ih.2.1, ih.2.2.1, ih.2.2.2.1, ?_⟩
        intro hex
        apply ih.2.2.2.2
        rcases hex with ⟨f, hf, hfn⟩
        rcases List.mem_cons.mp hf with hfe | hfr
        · exfalso
          rcases h1 with hdot | hdot <;> simp [hfe, hdot] at hfn
        · exact ⟨f, hfr, hfn⟩
      · rw [if_neg h1, if_pos h]
        exact ⟨rfl, rfl, rfl, rfl, fun _ => rfl⟩

/-- Characterisation of a record printed anywhere during a walk: it came
either from the directory branch with its print condition true, or from the
regular-file branch with its print condition true. -/
def SoundRec (opts : Options) (st : String) (r : PrintRec) : Prop :=
  (r.dtype = DType.dir ∧ dir_print_decision opts st r.name = true) ∨
  (r.dtype = DType.reg ∧ file_print_decision opts st r.name = true)

mutual

/-- Every record printed by a walk satisfies `SoundRec`. -/
theorem recursive_search_out_sound (opts : Options) (af : Nat → Bool) (st : String)
    (node : Node) (dir : String) (depth : Int) (mc : Nat) :
    ∀ r ∈ (recursive_search opts af st node dir depth mc).out, SoundRec opts st r := by
  match node with
  | Node.dir true entries =>
      have ih := searchEntries_out_sound opts af st entries dir depth mc
      intro r hr
      rw [recursive_search] at hr
      split at hr <;> exact ih r hr
  | Node.dir false e => intro r hr; rw [recursive_search] at hr; simp at hr
  | Node.file => intro r hr; rw [recursive_search] at hr; simp at hr
  | Node.other => intro r hr; rw [recursive_search] at hr; simp at hr

/-- Every record printed by the entry loop satisfies `SoundRec`. -/
theorem searchEntries_out_sound (opts : Options) (af : Nat → Bool) (st : String)
    (entries : List (String × Node)) (dir : String) (depth : Int) (mc : Nat) :
    ∀ r ∈ (searchEntries opts af st entries dir depth mc).out, SoundRec opts st r := by
  match entries with
  | [] => intro r hr; rw [searchEntries] at hr; simp at hr
  | (name, child) :: rest =>
      intro r hr
      rw [searchEntries] at hr
      by_cases h1 : name = "." ∨ name = ".."
      · rw [if_pos h1] at hr
        exact searchEntries_out_sound opts af st rest dir depth mc r hr
      · rw [if_neg h1] at hr
        by_cases h2 : depth = opts.max_depth
        · rw [if_pos h2] at hr; simp at hr
        · rw [if_neg h2] at hr
          by_cases h3 : af mc = true
          · rw [if_pos h3] at hr; simp at hr
          · rw [if_neg h3] at hr
            match child with
            | Node.dir readable centries =>
                simp only [List.mem_append] at hr
                rcases hr with (hp | hc) | hrest
                · by_cases hd : dir_print_decision opts st name = true
                  · rw [if_pos hd] at hp
                    simp at hp
                    subst hp
                    exact Or.inl ⟨rfl, hd⟩
                  · rw [if_neg hd] at hp; simp at hp
                · exact recursive_search_out_sound opts af st (Node.dir readable centries)
                    (dir ++ "/" ++ name) (depth + 1) (mc + 1) r hc
                · exact searchEntries_out_sound opts af st rest dir depth _ r hrest
            | Node.file =>
                simp only [List.mem_append] at hr
                rcases hr with hp | hrest
                · by_cases hd : file_print_decision opts st name = true
                  · rw [if_pos hd] at hp
                    simp at hp
                    subst hp
                    exact Or.inr ⟨rfl, hd⟩
                  · rw [if_neg hd] at hp; simp at hp
                · exact searchEntries_out_sound opts af st rest dir depth (mc + 1) r hrest
            | Node.other =>
                exact searchEntries_out_sound opts af st rest dir depth (mc + 1) r hr

end

/-- Agreement of two walk results on everything except the printed output:
return value, opened directories, leaked handles, and `malloc` count. -/
def WalkAgree (r1 r2 : WalkResult) : Prop :=
  r1.ret = r2.ret ∧ r1.opened = r2.opened ∧ r1.leaked = r2.leaked ∧ r1.mc = r2.mc

/-- Agreement of two entry-loop results on everything except output. -/
def EntriesAgree (r1 r2 : EntriesResult) : Prop :=
  r1.exit = r2.exit ∧ r1.opened = r2.opened ∧ r1.leaked = r2.leaked ∧ r1.mc = r2.mc

mutual

/-- The traversal structure — which directories are opened, what is leaked,
how many allocations happen, and the return value — depends only on
`max_depth`: two configurations with the same `max_depth` (and any two
search patterns) drive identical traversals. -/
theorem recursive_search_control_indep (o1 o2 : Options) (af : Nat → Bool)
    (s1 s2 : String) (h : o1.max_depth = o2.max_depth) (node : Node) (dir : String)
    (depth : Int) (mc : Nat) :
    WalkAgree (recursive_search o1 af s1 node dir depth mc)
      (recursive_search o2 af s2 node dir depth mc) := by
  match node with
  | Node.dir true entries =>
      have ih := searchEntries_control_indep o1 o2 af s1 s2 h entries dir depth mc
      obtain ⟨he, ho, hl, hm⟩ := ih
      rw [recursive_search, recursive_search]
      cases hx : (searchEntries o1 af s1 entries dir depth mc).exit <;>
        rw [← he, hx] <;>
        simp [WalkAgree, ho, hl, hm]
  | Node.dir false e => rw [recursive_search, recursive_search]; exact ⟨rfl, rfl, rfl, rfl⟩
  | Node.file => rw [recursive_search, recursive_search]; exact ⟨rfl, rfl, rfl, rfl⟩
  | Node.other => rw [recursive_search, recursive_search]; exact ⟨rfl, rfl, rfl, rfl⟩

/-- Entry-loop counterpart of `recursive_search_control_indep`. -/
theorem searchEntries_control_indep (o1 o2 : Options) (af : Nat → Bool)
    (s1 s2 : String) (h : o1.max_depth = o2.max_depth) (entries : List (String × Node))
    (dir : String) (depth : Int) (mc : Nat) :
    EntriesAgree (searchEntries o1 af s1 entries dir depth mc)
      (searchEntries o2 af s2 entries dir depth mc) := by
  match entries with
  | [] => rw [searchEntries, searchEntries]; exact ⟨rfl, rfl, rfl, rfl⟩
  | (name, child) :: rest =>
      rw [searchEntries, searchEntries]
      by_cases h1 : name = "." ∨ name = ".."
      · rw [if_pos h1, if_pos h1]
        exact searchEntries_control_indep o1 o2 af s1 s2 h rest dir depth mc
      · rw [if_neg h1, if_neg h1]
        by_cases h2 : depth = o1.max_depth
        · rw [if_pos h2, if_pos (h ▸ h2)]
          exact ⟨rfl, rfl, rfl, rfl⟩
        · rw [if_neg h2, if_neg (fun hc => h2 (h ▸ hc))]
          by_cases h3 : af mc = true
          · rw [if_pos h3, if_pos h3]; exact ⟨rfl, rfl, rfl, rfl⟩
          · rw [if_neg h3, if_neg h3]
            match child with
            | Node.dir readable centries =>
                have ihc := recursive_search_control_indep o1 o2 af s1 s2 h
                  (Node.dir readable centries) (dir ++ "/" ++ name) (depth + 1) (mc + 1)
                obtain ⟨hcr, hco, hcl, hcm⟩ := ihc
                have ihr := searchEntries_control_indep o1 o2 af s1 s2 h rest dir depth
                  ((recursive_search o1 af s1 (Node.dir readable centries)
                    (dir ++ "/" ++ name) (depth + 1) (mc + 1)).mc)
                obtain ⟨hre, hro, hrl, hrm⟩ := ihr
                simp only [EntriesAgree]
                rw [← hcm]
                exact ⟨hre, by rw [hco, hro], by rw [hcl, hrl], by rw [hrm]⟩
            | Node.file =>
                exact searchEntries_control_indep o1 o2 af s1 s2 h rest dir depth (mc + 1)
            | Node.other =>
                exact searchEntries_control_indep o1 o2 af s1 s2 h rest dir depth (mc + 1)

end

/-! ## Claim theorems -/

/-- C1, counterexample: in the scenario tree with `maxDepth = 0`, the code
does not print `root/a.txt` (in fact it prints nothing at all, because the
depth check fires on the first non-dot entry of the root listing), refuting
the part of the claim that says the direct children are printed. -/
theorem c1_counterexample :
    "root/a.txt" ∉
      (recursive_search optsDepth0 af0 "" rootTree "root" 0 0).out.map PrintRec.path ∧
    (recursive_search optsDepth0 af0 "" rootTree "root" 0 0).out = [] := by
  decide

/-- C1, amended: with `maxDepth = 0` the walker prints nothing at all —
the depth check `depth == opts->max_depth` fires before the first non-dot
entry of the starting directory is processed — and the only directory that
is ever opened is the starting directory itself, so in particular nothing
below the direct children is printed and no recursion past depth 0
occurs. -/
theorem c1_maxdepth_zero_prints_nothing (opts : Options) (af : Nat → Bool) (st : String)
    (node : Node) (dir : String) (mc : Nat) (h : opts.max_depth = 0) :
    (recursive_search opts af st node dir 0 mc).out = [] ∧
    ∀ p ∈ (recursive_search opts af st node dir 0 mc).opened, p = dir := by
  match node with
  | Node.dir true entries =>
      have hl := searchEntries_at_limit opts af st entries dir 0 mc h.symm
      rw [recursive_search]
      split <;> simp [hl.1, hl.2.1]
  | Node.dir false e => rw [recursive_search]; simp
  | Node.file => rw [recursive_search]; simp
  | Node.other => rw [recursive_search]; simp

/-- C1, witness: the amended statement evaluated on the scenario tree. -/
theorem c1_maxdepth_zero_prints_nothing_witness :
    (recursive_search optsDepth0 af0 "" rootTree "root" 0 0).out = [] ∧
    ∀ p ∈ (recursive_search optsDepth0 af0 "" rootTree "root" 0 0).opened, p = "root" :=
  c1_maxdepth_zero_prints_nothing optsDepth0 af0 "" rootTree "root" 0 rfl

/-- C2: when the current depth equals `max_depth`, the entry loop prints
nothing, opens no subdirectory, performs no allocation (so no remaining
entry is processed at all), and — as soon as any entry other than `"."` or
`".."` remains — terminates the whole listing by the early return, which
truncates the remaining siblings rather than merely suppressing
recursion. -/
theorem c2_depth_limit_truncates_listing (opts : Options) (af : Nat → Bool) (st : String)
    (entries : List (String × Node)) (dir : String) (depth : Int) (mc : Nat)
    (h : depth = opts.max_depth) :
    (searchEntries opts af st entries dir depth mc).out = [] ∧
    (searchEntries opts af st entries dir depth mc).opened = [] ∧
    (searchEntries opts af st entries dir depth mc).mc = mc ∧
    ((∃ e ∈ entries, e.1 ≠ "." ∧ e.1 ≠ "..") →
      (searchEntries opts af st entries dir depth mc).exit = LoopExit.earlyReturn) := by
  have hl := searchEntries_at_limit opts af st entries dir depth mc h
  exact ⟨hl.1, hl.2.1, hl.2.2.2.1, hl.2.2.2.2⟩

/-- C2, witness: a listing reaching the limit with entries left. -/
theorem c2_depth_limit_truncates_listing_witness :
    (searchEntries optsDepth0 af0 "" [("a.txt", Node.file), ("sub", subTree)] "root" 0 0).out
        = [] ∧
    (searchEntries optsDepth0 af0 "" [("a.txt", Node.file), ("sub", subTree)] "root" 0 0).opened
        = [] ∧
    (searchEntries optsDepth0 af0 "" [("a.txt", Node.file), ("sub", subTree)] "root" 0 0).mc
        = 0 ∧
    ((∃ e ∈ [("a.txt", Node.file), ("sub", subTree)], e.1 ≠ "." ∧ e.1 ≠ "..") →
      (searchEntries optsDepth0 af0 "" [("a.txt", Node.file), ("sub", subTree)] "root" 0 0).exit
        = LoopExit.earlyReturn) :=
  c2_depth_limit_truncates_listing optsDepth0 af0 ""
    [("a.txt", Node.file), ("sub", subTree)] "root" 0 0 rfl

/-- C3: the claim that the directory handle is closed on every exit path is
violated by the code.  On the depth-limit early return the `DIR` handle of
the current call is leaked (`leaked = 1` although the call returns 0),
while a run that never trips the depth check closes every handle it
opens. -/
theorem c3_depth_early_return_leaks_directory_handle :
    (recursive_search optsDepth0 af0 "" (Node.dir true [("a.txt", Node.file)]) "root" 0 0).leaked
        = 1 ∧
    (recursive_search optsDepth0 af0 "" (Node.dir true [("a.txt", Node.file)]) "root" 0 0).ret
        = 0 ∧
    (recursive_search default_options af0 "" rootTree "root" 0 0).leaked = 0 := by
  decide

/-- C4: with `show_hidden = false` no printed regular-file record has a
name beginning with a dot, while a directory named `.git` is still printed
(its name matches the empty pattern and `show_dirs` holds) and is still
opened for recursion — hidden-name suppression does not apply to
directories. -/
theorem c4_hidden_file_suppression_dirs_exempt (opts : Options) (af : Nat → Bool)
    (st : String) (node : Node) (dir : String) (depth : Int) (mc : Nat)
    (h : opts.show_hidden = false) :
    (∀ r ∈ (recursive_search opts af st node dir depth mc).out,
        r.dtype = DType.reg → startsDot r.name = false) ∧
    (⟨"root/.git", ".git", DType.dir⟩ : PrintRec) ∈
        (recursive_search default_options af0 "" dotDirTree "root" 0 0).out ∧
    "root/.git" ∈ (recursive_search default_options af0 "" dotDirTree "root" 0 0).opened := by
  refine ⟨?_, by decide, by decide⟩
  intro r hr hreg
  rcases recursive_search_out_sound opts af st node dir depth mc r hr with ⟨hd, _⟩ | ⟨_, hf⟩
  · rw [hreg] at hd
    exact absurd hd (by decide)
  · exact file_print_decision_not_hidden opts st r.name h hf

/-- C4, witness: the statement evaluated on the scenario tree with the
default configuration. -/
theorem c4_hidden_file_suppression_dirs_exempt_witness :
    (∀ r ∈ (recursive_search default_options af0 "" rootTree "root" 0 0).out,
        r.dtype = DType.reg → startsDot r.name = false) ∧
    (⟨"root/.git", ".git", DType.dir⟩ : PrintRec) ∈
        (recursive_search default_options af0 "" dotDirTree "root" 0 0).out ∧
    "root/.git" ∈ (recursive_search default_options af0 "" dotDirTree "root" 0 0).opened :=
  c4_hidden_file_suppression_dirs_exempt default_options af0 "" rootTree "root" 0 0 rfl

/-- C5, counterexample: with `exact_match = true` the file `a.txt` passes
the type-visibility rule (`show_files`) and the hidden rule
(`show_hidden = true`), yet an empty pattern does not get it printed — the
exact-match comparison `strcmp("", "a.txt")` fails, so the claim that every
eligible entry is printed under the empty pattern is false. -/
theorem c5_counterexample :
    exactOpts.show_files = true ∧ exactOpts.show_hidden = true ∧
    (recursive_search exactOpts af0 "" (Node.dir true [("a.txt", Node.file)]) "root" 0 0).out
      = [] := by
  decide

/-- C5, amended: the empty pattern is a substring of every name, so in
substring mode (`exact_match = false`) every entry that passes the
type-visibility and hidden rules is printed, and every directory passing
`show_dirs` is printed; in exact-match mode an empty pattern matches only
an empty file name. -/
theorem c5_empty_pattern_matches_substring_mode (opts : Options) (name : String)
    (hf : opts.show_files = true) (hh : opts.show_hidden = true ∨ startsDot name = false)
    (he : opts.exact_match = false) :
    strstrF name "" = true ∧
    file_print_decision opts "" name = true ∧
    (opts.show_dirs = true → dir_print_decision opts "" name = true) := by
  refine ⟨strstrF_empty name, ?_, fun hd => ?_⟩
  · unfold file_print_decision
    split_ifs with h1 h2 h3 <;> simp_all [strstrF_empty]
  · unfold dir_print_decision
    rw [hd]
    simp [strstrF_empty]

/-- C5, witness: the amended statement on the name `a.txt` under the
default configuration. -/
theorem c5_empty_pattern_matches_substring_mode_witness :
    strstrF "a.txt" "" = true ∧
    file_print_decision default_options "" "a.txt" = true ∧
    (default_options.show_dirs = true → dir_print_decision default_options "" "a.txt" = true) :=
  c5_empty_pattern_matches_substring_mode default_options "a.txt" rfl
    (Or.inr (by decide)) rfl

/-- C6: in exact-match mode a regular file that passes the visibility and
hidden rules is printed exactly when its name equals the pattern; on the
tree `root/{foo, foobar}` with pattern `foo` only `root/foo` is printed. -/
theorem c6_exact_match_requires_equality (opts : Options) (st name : String)
    (he : opts.exact_match = true) (hf : opts.show_files = true)
    (hh : opts.show_hidden = true ∨ startsDot name = false) :
    (file_print_decision opts st name = true ↔ name = st) ∧
    (recursive_search exactOpts af0 "foo" fooTree "root" 0 0).out.map PrintRec.path
      = ["root/foo"] := by
  refine ⟨⟨?_, ?_⟩, by decide⟩
  · intro hd
    unfold file_print_decision at hd
    split_ifs at hd
    simp_all
  · intro hnm
    subst hnm
    unfold file_print_decision
    split_ifs <;> simp_all [strstrF_self]

/-- C6, witness: the statement evaluated at pattern `foo` and name
`foo`. -/
theorem c6_exact_match_requires_equality_witness :
    (file_print_decision exactOpts "foo" "foo" = true ↔ "foo" = "foo") ∧
    (recursive_search exactOpts af0 "foo" fooTree "root" 0 0).out.map PrintRec.path
      = ["root/foo"] :=
  c6_exact_match_requires_equality exactOpts "foo" "foo" rfl rfl (Or.inl rfl)

/-- C7: with `show_dirs = false` and `show_files = true`, every printed
record is a regular file (no directory path ever appears in the output),
while the set of directories opened for recursion is exactly the one the
same walk with `show_dirs = true` opens; on the scenario tree the files of
the subdirectory are still reached and printed. -/
theorem c7_dirs_not_printed_still_traversed (opts : Options) (af : Nat → Bool) (st : String)
    (node : Node) (dir : String) (depth : Int) (mc : Nat)
    (hd : opts.show_dirs = false) (_hf : opts.show_files = true) :
    (∀ r ∈ (recursive_search opts af st node dir depth mc).out, r.dtype = DType.reg) ∧
    (recursive_search opts af st node dir depth mc).opened =
      (recursive_search (withShowDirs opts) af st node dir depth mc).opened ∧
    (recursive_search filesOnlyOpts af0 "" rootTree "root" 0 0).out.map PrintRec.path
      = ["root/a.txt", "root/sub/b.txt"] := by
  refine ⟨?_, ?_, by decide⟩
  · intro r hr
    rcases recursive_search_out_sound opts af st node dir depth mc r hr with ⟨_, hdd⟩ | ⟨hreg, _⟩
    · exfalso
      unfold dir_print_decision at hdd
      rw [hd] at hdd
      simp at hdd
    · exact hreg
  · exact (recursive_search_control_indep opts (withShowDirs opts) af st st rfl
      node dir depth mc).2.1

/-- C7, witness: the statement evaluated on the scenario tree with the
files-only configuration. -/
theorem c7_dirs_not_printed_still_traversed_witness :
    (∀ r ∈ (recursive_search filesOnlyOpts af0 "" rootTree "root" 0 0).out,
        r.dtype = DType.reg) ∧
    (recursive_search filesOnlyOpts af0 "" rootTree "root" 0 0).opened =
      (recursive_search (withShowDirs filesOnlyOpts) af0 "" rootTree "root" 0 0).opened ∧
    (recursive_search filesOnlyOpts af0 "" rootTree "root" 0 0).out.map PrintRec.path
      = ["root/a.txt", "root/sub/b.txt"] :=
  c7_dirs_not_printed_still_traversed filesOnlyOpts af0 "" rootTree "root" 0 0 rfl rfl

/-- C8: a walk started on an unopenable directory reports failure
(`perror` and return 1) without visiting anything — so failure on the
top-level starting directory makes the program result non-zero — while an
unopenable subdirectory met during iteration contributes nothing but its
own (possibly printed) name: the recursive call on it fails silently, its
return value is discarded, and the loop continues with the remaining
sibling entries exactly as it would after an empty readable
subdirectory. -/
theorem c8_unreadable_subdir_skipped_top_level_aborts (opts : Options) (af : Nat → Bool)
    (st : String) (cs : List (String × Node)) (name : String)
    (rest : List (String × Node)) (dir : String) (depth : Int) (mc : Nat)
    (h1 : ¬(name = "." ∨ name = "..")) (h2 : depth ≠ opts.max_depth)
    (h3 : af mc = false) :
    recursive_search opts af st (Node.dir false cs) dir depth mc
      = ⟨[], 1, [], 0, mc⟩ ∧
    searchEntries opts af st ((name, Node.dir false cs) :: rest) dir depth mc =
      ⟨(if dir_print_decision opts st name then
          [⟨dir ++ "/" ++ name, name, DType.dir⟩] else []) ++
          (searchEntries opts af st rest dir depth (mc + 1)).out,
        (searchEntries opts af st rest dir depth (mc + 1)).exit,
        (searchEntries opts af st rest dir depth (mc + 1)).opened,
        (searchEntries opts af st rest dir depth (mc + 1)).leaked,
        (searchEntries opts af st rest dir depth (mc + 1)).mc⟩ := by
  constructor
  · rw [recursive_search]
  · have hfail : recursive_search opts af st (Node.dir false cs) (dir ++ "/" ++ name)
        (depth + 1) (mc + 1) = ⟨[], 1, [], 0, mc + 1⟩ := by
      rw [recursive_search]
    rw [searchEntries, if_neg h1, if_neg h2, if_neg (by simp [h3])]
    simp [hfail]

/-- C8, witness: a concrete unreadable subdirectory followed by a sibling
file. -/
theorem c8_unreadable_subdir_skipped_top_level_aborts_witness :
    recursive_search default_options af0 "" (Node.dir false [("secret.txt", Node.file)])
        "root" 0 0 = ⟨[], 1, [], 0, 0⟩ ∧
    searchEntries default_options af0 ""
        [("locked", Node.dir false [("secret.txt", Node.file)]), ("c.txt", Node.file)]
        "root" 0 0 =
      ⟨(if dir_print_decision default_options "" "locked" then
          [⟨"root" ++ "/" ++ "locked", "locked", DType.dir⟩] else []) ++
          (searchEntries default_options af0 "" [("c.txt", Node.file)] "root" 0 (0 + 1)).out,
        (searchEntries default_options af0 "" [("c.txt", Node.file)] "root" 0 (0 + 1)).exit,
        (searchEntries default_options af0 "" [("c.txt", Node.file)] "root" 0 (0 + 1)).opened,
        (searchEntries default_options af0 "" [("c.txt", Node.file)] "root" 0 (0 + 1)).leaked,
        (searchEntries default_options af0 "" [("c.txt", Node.file)] "root" 0 (0 + 1)).mc⟩ :=
  c8_unreadable_subdir_skipped_top_level_aborts default_options af0 ""
    [("secret.txt", Node.file)] "locked" [("c.txt", Node.file)] "root" 0 0
    (by decide) (by decide) rfl

/-- C9, counterexample: the argument `3x` is not a positive integer, yet
the `-l` handling accepts it (as 3) instead of reporting an error, because
`atoi` ignores trailing non-digit characters. -/
theorem c9_counterexample :
    ¬ ∀ arg : String,
        isPositiveIntegerLiteral arg = false → handle_l_flag arg = LReply.rejected := by
  intro hall
  exact absurd (hall "3x" (by decide)) (by decide)

/-- C9, amended: the `-l` argument is rejected (error report, usage text,
failure exit before any traversal) exactly when `atoi` of it is
non-positive; whenever `atoi` yields a positive value — in particular for
every pure positive decimal string, but also for strings with trailing
garbage such as `3x` — that value becomes `max_depth`. -/
theorem c9_depth_limit_validation (arg : String) :
    (atoi arg.data ≤ 0 → handle_l_flag arg = LReply.rejected) ∧
    (0 < atoi arg.data → handle_l_flag arg = LReply.accepted (atoi arg.data)) ∧
    (isPositiveIntegerLiteral arg = true → handle_l_flag arg = LReply.accepted (atoi arg.data)) := by
  refine ⟨fun h => ?_, fun h => ?_, fun h => ?_⟩
  · unfold handle_l_flag
    rw [if_pos h]
  · unfold handle_l_flag
    rw [if_neg (by omega)]
  · have hpos : 0 < atoi arg.data := by
      unfold isPositiveIntegerLiteral at h
      simp only [Bool.and_eq_true, decide_eq_true_eq] at h
      exact h.2
    unfold handle_l_flag
    rw [if_neg (by omega)]

/-- C9, witness: `0` is rejected and `7` is accepted with value 7. -/
theorem c9_depth_limit_validation_witness :
    handle_l_flag "0" = LReply.rejected ∧
    handle_l_flag "7" = LReply.accepted (atoi "7".data) :=
  ⟨(c9_depth_limit_validation "0").1 (by decide),
    (c9_depth_limit_validation "7").2.1 (by decide)⟩

/-- C10: when `malloc` fails on an entry, the loop stops processing the
remaining entries of the current listing only (`break`: no print, no open,
no leak, exactly the one failed allocation counted) and exits normally; a
call on a readable directory always returns 0, and on every normal loop
exit the handle of the call is closed, so an allocation failure is
indistinguishable from a completed listing in the return value. -/
theorem c10_alloc_failure_truncates_closes_returns_zero (opts : Options) (af : Nat → Bool)
    (st name : String) (child : Node) (rest : List (String × Node)) (dir : String)
    (depth : Int) (mc : Nat)
    (h1 : ¬(name = "." ∨ name = "..")) (h2 : depth ≠ opts.max_depth)
    (h3 : af mc = true) :
    searchEntries opts af st ((name, child) :: rest) dir depth mc
      = ⟨[], LoopExit.normal, [], 0, mc + 1⟩ ∧
    (∀ entries mc2,
      (recursive_search opts af st (Node.dir true entries) dir depth mc2).ret = 0) ∧
    (∀ entries mc2,
      (searchEntries opts af st entries dir depth mc2).exit = LoopExit.normal →
      (recursive_search opts af st (Node.dir true entries) dir depth mc2).leaked =
        (searchEntries opts af st entries dir depth mc2).leaked) := by
  refine ⟨?_, fun entries mc2 => ?_, fun entries mc2 hnorm => ?_⟩
  · rw [searchEntries, if_neg h1, if_neg h2, if_pos h3]
  · rw [recursive_search]
    split <;> rfl
  · rw [recursive_search]
    simp [hnorm]

/-- C10, witness: the first allocation of the run fails on the first entry
of a two-entry listing; the walk still returns 0 with nothing leaked. -/
theorem c10_alloc_failure_truncates_closes_returns_zero_witness :
    searchEntries default_options afAllFail "" [("a.txt", Node.file), ("b.txt", Node.file)]
        "root" 0 0 = ⟨[], LoopExit.normal, [], 0, 0 + 1⟩ ∧
    (∀ entries mc2,
      (recursive_search default_options afAllFail "" (Node.dir true entries) "root" 0 mc2).ret
        = 0) ∧
    (∀ entries mc2,
      (searchEntries default_options afAllFail "" entries "root" 0 mc2).exit = LoopExit.normal →
      (recursive_search default_options afAllFail "" (Node.dir true entries) "root" 0 mc2).leaked
        = (searchEntries default_options afAllFail "" entries "root" 0 mc2).leaked) :=
  c10_alloc_failure_truncates_closes_returns_zero default_options afAllFail "" "a.txt"
    Node.file [("b.txt", Node.file)] "root" 0 0 (by decide) (by decide) rfl

end FileSearch
